import Mathlib

/-!
# Verification of the KicadAutoFlow Verification & Reconciliation Engine

Shallow embedding of the core logic of the repository:

* `inventory_manager.py` — the `Inventory` store (`add_part`, `get_part`,
  `find_match`, `get_next_part_id`);
* `scripts/check_assets.py` — the `VerificationEngine`
  (`verify_bom`, `_verify_component`) together with its data model
  (`Component`, `ComponentStatus`, `VerificationReport`).

Python conventions are modelled explicitly:

* optional / possibly-empty strings are `Option String`, with Python
  truthiness (`if x:`) rendered by `truthy` (`none` and `some ""` are falsy);
* the tri-state-plus-sentinel field `footprint_verified`
  (Python `True` / `False` / `None` / `'review_pending'`) is the
  four-constructor enum `FpVerified`;
* Python exceptions are `Except String`; external collaborators
  (library manager, datasheet manager, API clients, LLM client, health
  calculator) are a record of `Except`-returning functions (`Env`), since the
  engine only calls their abstract interface;
* in-place mutation of a `Component` becomes explicit state passing: each
  pipeline stage maps a component to an updated component, and a stage that
  can raise returns the partially-updated component alongside the error
  (Python leaves the partial mutations in place when an exception escapes).
-/

/-! ## Definitions (shallow embedding of the source) -/

/- All string helpers below are implemented structurally over `String.data`
(rather than with `String.trim`, `String.startsWith`, ..., whose byte-position
loops do not reduce definitionally), so that every definition in this file
evaluates by `decide`/`rfl` on concrete inputs. -/

/-- Python truthiness of an optional string: `None` and `""` are falsy. -/
def truthy : Option String → Bool
  | none => false
  | some s => !s.data.isEmpty

/-- Value of an optional string in a context where it is known truthy
(Python would just use the string). -/
def getS (o : Option String) : String := o.getD ""

/-- Python `str(x)` of an optional value as it appears inside an f-string:
`None` prints as `"None"`. -/
def pyStr (o : Option String) : String := o.getD "None"

/-- ASCII whitespace, as Python `str.strip()` removes. -/
def isPyWs (c : Char) : Bool :=
  c = ' ' || c = '\t' || c = '\n' || c = '\r' || c = '\x0b' || c = '\x0c'

/-- Python `s.strip()`. -/
def pyStrip (s : String) : String :=
  ⟨((s.data.dropWhile isPyWs).reverse.dropWhile isPyWs).reverse⟩

/-- Python `s.lower()` (ASCII model). -/
def pyLower (s : String) : String := ⟨s.data.map Char.toLower⟩

/-- Python `x.strip().lower()` normalisation used by `Inventory.find_match`. -/
def pyNorm (s : String) : String := pyLower (pyStrip s)

/-- Python `s.startswith(pre)`. -/
def pyStartsWith (s pre : String) : Bool := pre.data.isPrefixOf s.data

/-- Python `s[n:]` on a string. -/
def pyDrop (s : String) (n : Nat) : String := ⟨s.data.drop n⟩

/-- Digit run to a natural number (used by the model of Python `int()`). -/
def digitsVal (l : List Char) : Nat :=
  l.foldl (fun n c => n * 10 + (c.toNat - 48)) 0

/-- Model of Python `int(s)`: optional surrounding whitespace, an optional
sign, then a non-empty digit run; anything else raises `ValueError`
(modelled as `none`). -/
def pyInt (s : String) : Option Int :=
  match (pyStrip s).data with
  | [] => none
  | '-' :: ds =>
    if !ds.isEmpty && ds.all Char.isDigit then some (-(digitsVal ds : Int)) else none
  | '+' :: ds =>
    if !ds.isEmpty && ds.all Char.isDigit then some (digitsVal ds : Int) else none
  | ds =>
    if ds.all Char.isDigit then some (digitsVal ds : Int) else none

/-- Left-pad a string with `'0'` up to width `w`. -/
def padZeros (w : Nat) (s : String) : String :=
  if w ≤ s.data.length then s
  else (String.mk (List.replicate (w - s.data.length) '0')) ++ s

/-- Model of Python `f"{n:03d}"`. -/
def pyFormat3 (n : Int) : String :=
  if n < 0 then "-" ++ padZeros 2 (Nat.repr n.natAbs)
  else padZeros 3 (Nat.repr n.natAbs)

/-- `data_models/inventory_item.py` item, restricted to the fields the
embedded code reads (`part_id`, `description`, `value`, `package`,
`footprint`, `footprint_source`, `mpn`). `footprint_source` is the
footprint-provenance enum, kept as its literal Python string
(`'manual'`, `'api'`, `'llm'`, `'kit_ingest_verified'`, `'unknown'`). -/
structure InventoryItem where
  part_id : Option String := none
  description : String := ""
  value : Option String := none
  package : Option String := none
  footprint : Option String := none
  footprint_source : String := "unknown"
  mpn : Option String := none
deriving DecidableEq

/-- The `Inventory` store: the `inventory_parts` list of `InventoryData`. -/
structure Inventory where
  inventory_parts : List InventoryItem := []
deriving DecidableEq

/-- `Inventory.add_part`: refuses (returns `false`) when a part with the same
truthy `part_id` is already present, otherwise appends and returns `true`.
The Python method mutates `self`; here the updated store is returned. -/
def Inventory.add_part (inv : Inventory) (part : InventoryItem) : Inventory × Bool :=
  if inv.inventory_parts.any (fun p => truthy p.part_id && p.part_id == part.part_id) then
    (inv, false)
  else
    ({ inventory_parts := inv.inventory_parts ++ [part] }, true)

/-- `Inventory.get_part`: first part with the given `part_id`. -/
def Inventory.get_part (inv : Inventory) (part_id : String) : Option InventoryItem :=
  inv.inventory_parts.find? (fun p => p.part_id == some part_id)

/-- `Inventory.find_match`: strict-priority best-match search.
Tier 3: first part whose truthy MPN equals the candidate MPN after
`strip().lower()`; the loop `break`s at the first hit.  Tier 2 (only when no
tier-3 hit and the candidate has truthy value and package): among parts whose
truthy value and package both match after normalisation, the first one that
itself has a truthy MPN, else the first one. -/
def Inventory.find_match (inv : Inventory)
    (bom_mpn bom_value bom_package : Option String) : Option InventoryItem :=
  let tier3 :=
    if truthy bom_mpn then
      inv.inventory_parts.find? (fun p =>
        truthy p.mpn && (pyNorm (getS p.mpn) == pyNorm (getS bom_mpn)))
    else none
  match tier3 with
  | some p => some p
  | none =>
    if truthy bom_value && truthy bom_package then
      let vp := inv.inventory_parts.filter (fun p =>
        truthy p.value && truthy p.package &&
        (pyNorm (getS p.value) == pyNorm (getS bom_value)) &&
        (pyNorm (getS p.package) == pyNorm (getS bom_package)))
      match vp.filter (fun p => truthy p.mpn) with
      | q :: _ => some q
      | [] => vp.head?
    else none

/-- `Inventory.get_next_part_id`: `"INV001"` on an empty store, else
`"INV"` followed by `max_id + 1` zero-padded to three digits, where `max_id`
is the running maximum (starting at 0) of `int(part_id[3:])` over parts whose
truthy `part_id` starts with `"INV"` and whose suffix parses. -/
def Inventory.get_next_part_id (inv : Inventory) : String :=
  if inv.inventory_parts.isEmpty then "INV001"
  else
    let max_id := inv.inventory_parts.foldl (fun m p =>
      if truthy p.part_id && pyStartsWith (getS p.part_id) "INV" then
        match pyInt (pyDrop (getS p.part_id) 3) with
        | some n => if n > m then n else m
        | none => m
      else m) (0 : Int)
    "INV" ++ pyFormat3 (max_id + 1)

/-- The four values the Python field `component.status.footprint_verified`
takes: `True`, `False`, `None`, and the sentinel string `'review_pending'`. -/
inductive FpVerified where
  | vtrue
  | vfalse
  | unknown
  | review_pending
deriving DecidableEq

/-- `ComponentStatus` from the `bom` data model: the flags the engine reads
and writes. `footprint_verified` starts as Python `None`. -/
structure ComponentStatus where
  footprint_exists : Bool := false
  api_downloaded : Bool := false
  llm_suggested : Bool := false
  footprint_verified : FpVerified := .unknown
  symbol_exists : Bool := false
  datasheet_local : Bool := false
deriving DecidableEq

/-- One BOM line (`Component` from the `bom` data model), restricted to the
fields the engine reads and writes. `health_score` stands for
`component.health_score.score` (an abstract numeric score). -/
structure Component where
  ref : String := ""
  value : String := ""
  description : String := ""
  package : Option String := none
  footprint : Option String := none
  mpn : Option String := none
  datasheet_url : Option String := none
  status : ComponentStatus := {}
  health_score : Int := 0
  source_info : Option String := none
  llm_notes : List String := []
deriving DecidableEq

/-- Append a diagnostic note (`component.llm_notes.append(...)`). -/
def addNote (c : Component) (s : String) : Component :=
  { c with llm_notes := c.llm_notes ++ [s] }

/-- One candidate record returned by `FootprintAPIClient.search_by_mpn`:
a dict read through `.get('download_url_kicad_fp')` and
`.get('manufacturer', 'N/A')` (absent keys are `none`). -/
structure ApiResult where
  download_url_kicad_fp : Option String := none
  manufacturer : Option String := none
deriving DecidableEq

/-- The engine's external collaborators, as `Except`-returning functions
(every Python call can raise).  `inventory` is the store the engine was
constructed with. -/
structure Env where
  inventory : Inventory
  check_local : Component → Except String Bool
  ds_download : Component → Except String Bool
  footprint_exists : String → Except String Bool
  symbol_exists : String → Except String Bool
  search_by_mpn : String → Except String (List ApiResult)
  download_asset : ApiResult → String → String → Except String (Option String)
  suggest_footprint : String → Except String (Option String)
  extract_text : Component → Except String (Option String)
  check_pin : String → Component → Except String (Option String)
  check_pkg : String → Component → Except String (Option String)
  calc_health : Component → Except String Int

/-- Result of one pipeline stage: the (possibly partially) updated component
and, when a call raised, the propagating exception message. -/
abbrev StageResult := Component × Option String

/-- Chain two stages: the second runs only when the first did not raise. -/
def seqStage (r : StageResult) (f : Component → StageResult) : StageResult :=
  match r with
  | (c, none) => f c
  | (c, some e) => (c, some e)

/-- Stage 1 of `_verify_component` (Inventory Check): `find_match`; on a hit
set `source_info`, adopt the item's footprint when the component has none,
and set `footprint_verified` from the item's `footprint_source`; on no hit
keep a truthy `source_info` else tag `"BoM Defined"`. -/
def reconcileStep (inv : Inventory) (c : Component) : Component :=
  match inv.find_match c.mpn (some c.value) c.package with
  | some item =>
    let c1 := { c with source_info := some ("Inventory Match: " ++ pyStr item.part_id) }
    let c2 := if !truthy c1.footprint then { c1 with footprint := item.footprint } else c1
    if item.footprint_source = "manual" ∨ item.footprint_source = "kit_ingest_verified" then
      { c2 with status := { c2.status with footprint_verified := .vtrue } }
    else
      { c2 with status := { c2.status with footprint_verified := .vfalse } }
  | none =>
    { c with source_info := if truthy c.source_info then c.source_info else some "BoM Defined" }

/-- Stage 2 of `_verify_component` (Datasheet Check): `check_local`, then an
on-demand `download` when absent and a URL is present. -/
def datasheetStep (env : Env) (c : Component) : StageResult :=
  match env.check_local c with
  | .error e => (c, some e)
  | .ok ds =>
    let c1 := { c with status := { c.status with datasheet_local := ds } }
    if !ds && truthy c1.datasheet_url then
      match env.ds_download c1 with
      | .error e => (c1, some e)
      | .ok dl =>
        let c2 := { c1 with status := { c1.status with datasheet_local := dl } }
        if dl then (c2, none)
        else (addNote c2 "Datasheet download failed.", none)
    else (c1, none)

/-- Opening of Stage 3: reset the per-pass flags, compute the skip gate
(`footprint` truthy and `footprint_verified is True`), then check an assigned
footprint against the libraries; a missing assigned footprint forces
`footprint_verified = False` and re-enables the search. Returns the updated
component and the final value of `skip_fp_search`. -/
def assignedCheck (env : Env) (c : Component) : (Component × Bool) × Option String :=
  let c0 := { c with status := { c.status with
                footprint_exists := false, api_downloaded := false, llm_suggested := false } }
  let skip0 := truthy c0.footprint && decide (c0.status.footprint_verified = .vtrue)
  if truthy c0.footprint then
    match env.footprint_exists (getS c0.footprint) with
    | .error e => ((c0, skip0), some e)
    | .ok ex =>
      let c1 := { c0 with status := { c0.status with footprint_exists := ex } }
      if ex then
        let c2 := if c1.status.footprint_verified = .unknown then
            { c1 with status := { c1.status with footprint_verified := .vfalse } }
          else c1
        ((c2, skip0), none)
      else
        let c2 := addNote c1 ("Assigned footprint '" ++ getS c0.footprint ++ "' not found.")
        ((({ c2 with status := { c2.status with footprint_verified := .vfalse } }), false), none)
  else ((c0, skip0), none)

/-- The API branch of Stage 3 (entered when the MPN is truthy): search by
MPN, pick the first result advertising a KiCad footprint download, download
it into `libs/review/<MPN>`; on success mark `api_downloaded`, set
`footprint_verified = 'review_pending'` and the `"API Download Pending"`
provenance.  The whole branch is inside one `try`, so a raise from the search
or the download is converted into a diagnostic note. -/
def apiSearchStep (env : Env) (c : Component) : Component :=
  match env.search_by_mpn (getS c.mpn) with
  | .error e => addNote c ("Footprint API search error: " ++ e)
  | .ok results =>
    if results.isEmpty then addNote c "MPN not found via Footprint API."
    else
      match results.find? (fun r => truthy r.download_url_kicad_fp) with
      | none => addNote c "API found matches but no direct KiCad footprint download."
      | some r =>
        match env.download_asset r "footprint" ("libs/review/" ++ getS c.mpn) with
        | .error e => addNote c ("Footprint API search error: " ++ e)
        | .ok none => addNote c "API footprint download failed."
        | .ok (some _) =>
          let c1 := { c with status := { c.status with
                        api_downloaded := true, footprint_verified := .review_pending } }
          let prov := "API Download Pending (" ++ r.manufacturer.getD "N/A" ++ ")"
          let c2 := { c1 with source_info := some prov }
          addNote c2 "Footprint downloaded via API, requires manual review/acceptance."

/-- The LLM branch of Stage 3 (entered when the component still has no
footprint, nothing was downloaded, and a package is present): ask for a
suggestion; on one, assign it, check its existence, force
`footprint_verified = False`, set provenance `"LLM Suggestion"`.  The branch
is inside one `try`; note that the footprint assignment happens before the
existence check, so a raise from the existence check leaves the suggestion
assigned but the flags unset, exactly as in the Python ordering. -/
def suggestionStep (env : Env) (c : Component) : Component :=
  match env.suggest_footprint (c.description ++ " " ++ getS c.package) with
  | .error e => addNote c ("LLM footprint suggestion error: " ++ e)
  | .ok none => addNote c "LLM did not suggest a footprint."
  | .ok (some s) =>
    let c1 := { c with footprint := some s }
    match env.footprint_exists s with
    | .error e => addNote c1 ("LLM footprint suggestion error: " ++ e)
    | .ok ex =>
      let c2 := { c1 with status := { c1.status with llm_suggested := true, footprint_exists := ex } }
      let c3 := { c2 with status := { c2.status with footprint_verified := .vfalse },
                          source_info := some "LLM Suggestion" }
      addNote c3 ("LLM suggested footprint '" ++ s ++ "'. VERIFY MANUALLY.")

/-- Stage 3 of `_verify_component` (Footprint Check & Acquisition):
`assignedCheck`, then — unless skipped — the API branch (when an MPN is
truthy) followed by the suggestion branch (under its own gate). -/
def acquisitionStep (env : Env) (c : Component) : StageResult :=
  match assignedCheck env c with
  | ((c1, _), some e) => (c1, some e)
  | ((c1, skip), none) =>
    if skip then (c1, none)
    else
      let c2 := if truthy c1.mpn then apiSearchStep env c1 else c1
      let c3 := if !truthy c2.footprint && !c2.status.api_downloaded && truthy c2.package then
          suggestionStep env c2
        else c2
      (c3, none)

/-- Stage 4 of `_verify_component` (Symbol Check): naive `Device:<value>`
existence heuristic. -/
def symbolStep (env : Env) (c : Component) : StageResult :=
  match env.symbol_exists ("Device:" ++ c.value) with
  | .error e => (c, some e)
  | .ok ex =>
    let c1 := { c with status := { c.status with symbol_exists := ex } }
    if ex then (c1, none)
    else (addNote c1 "Symbol likely missing or needs explicit definition.", none)

/-- Stage 5 of `_verify_component` (optional LLM datasheet checks, gated by
`check_llm_doc` and a local datasheet): extract text, then both consistency
checks inside one `try`. -/
def llmDocStep (env : Env) (check_llm_doc : Bool) (c : Component) : StageResult :=
  if check_llm_doc && c.status.datasheet_local then
    match env.extract_text c with
    | .error e => (c, some e)
    | .ok none => (addNote c "LLM Doc check skipped (text extraction failed).", none)
    | .ok (some txt) =>
      match env.check_pin txt c with
      | .error e => (addNote c ("LLM datasheet check error: " ++ e), none)
      | .ok pin =>
        match env.check_pkg txt c with
        | .error e => (addNote c ("LLM datasheet check error: " ++ e), none)
        | .ok pkg =>
          (addNote (addNote c ("LLM Doc Pin Check: " ++ pin.getD "Error"))
            ("LLM Doc Pkg Check: " ++ pkg.getD "Error"), none)
  else (c, none)

/-- Stage 6 of `_verify_component` (health scoring):
`component.calculate_health(...)`. -/
def healthStep (env : Env) (c : Component) : StageResult :=
  match env.calc_health c with
  | .error e => (c, some e)
  | .ok s => ({ c with health_score := s }, none)

/-- `VerificationEngine._verify_component`: clear the diagnostic notes, then
run the six stages in order; a raise from an unguarded call propagates (with
the mutations made so far kept in place). -/
def verify_component (env : Env) (check_llm_doc : Bool) (c : Component) : StageResult :=
  let c1 := reconcileStep env.inventory { c with llm_notes := [] }
  seqStage (seqStage (seqStage (seqStage
    (datasheetStep env c1)
    (fun x => acquisitionStep env x))
    (fun x => symbolStep env x))
    (fun x => llmDocStep env check_llm_doc x))
    (fun x => healthStep env x)

/-- `VerificationReport` (`check_assets.py`): the summary counters and the
ordered list of per-component error strings. -/
structure VerificationReport where
  components_processed : Nat := 0
  needs_review : Nat := 0
  missing_footprint : Nat := 0
  missing_symbol : Nat := 0
  datasheet_missing : Nat := 0
  api_downloads_pending : Nat := 0
  llm_suggestions_made : Nat := 0
  errors : List String := []
deriving DecidableEq

/-- The one configuration value `verify_bom` reads:
`config.health_rules.thresholds.needs_review_below`. -/
structure RunConfig where
  needs_review_below : Int := 0
deriving DecidableEq

/-- The per-component counter updates of `verify_bom` (lines after the
`_verify_component` call), applied to a component whose pass raised no
exception. -/
def reportTally (cfg : RunConfig) (c : Component) (rep : VerificationReport) :
    VerificationReport :=
  let rep := if c.status.footprint_verified = .review_pending then
      { rep with api_downloads_pending := rep.api_downloads_pending + 1 } else rep
  let rep := if !c.status.footprint_exists && !c.status.api_downloaded then
      if !c.status.llm_suggested then
        { rep with missing_footprint := rep.missing_footprint + 1 }
      else
        { rep with llm_suggestions_made := rep.llm_suggestions_made + 1 }
    else rep
  let rep := if !c.status.symbol_exists then
      { rep with missing_symbol := rep.missing_symbol + 1 } else rep
  let rep := if !c.status.datasheet_local && !truthy c.datasheet_url then
      { rep with datasheet_missing := rep.datasheet_missing + 1 } else rep
  if c.health_score < cfg.needs_review_below then
    { rep with needs_review := rep.needs_review + 1 } else rep

/-- The `for` loop of `verify_bom`: each component is run through
`_verify_component`; on an exception the loop appends
`"Error verifying component <ref>: <e>"` to the report's errors and moves on,
otherwise it updates the counters from the component's final status.
Counter updates commute (they are increments), so accumulating them from the
tail first yields the same totals as the Python left-to-right loop; the
error strings are kept in loop order. -/
def runLoop (cfg : RunConfig) (env : Env) (check_llm_doc : Bool) :
    List Component → List Component × VerificationReport
  | [] => ([], {})
  | c :: rest =>
    let r := verify_component env check_llm_doc c
    let acc := runLoop cfg env check_llm_doc rest
    match r with
    | (c', none) => (c' :: acc.1, reportTally cfg c' acc.2)
    | (c', some e) =>
      (c' :: acc.1,
       { acc.2 with errors := ("Error verifying component " ++ c.ref ++ ": " ++ e) :: acc.2.errors })

/-- `VerificationEngine.verify_bom`: sets `components_processed` to the
number of BOM lines up front, then runs the loop.  Returns the updated
components (the BOM is mutated in place in Python) and the report. -/
def verify_bom (cfg : RunConfig) (env : Env) (check_llm_doc : Bool)
    (bom : List Component) : List Component × VerificationReport :=
  let r := runLoop cfg env check_llm_doc bom
  (r.1, { r.2 with components_processed := bom.length })

/-- Tier-3 predicate, written from the spec's words: the item's MPN equals
the candidate's MPN under case-insensitive whitespace-trimmed comparison
(both MPNs populated). -/
def mpnMatches (m : Option String) (it : InventoryItem) : Bool :=
  truthy m && truthy it.mpn && (pyNorm (getS it.mpn) == pyNorm (getS m))

/-- Tier-2 predicate, written from the spec's words: case-insensitive
trimmed equality on both value and package (all four populated). -/
def valuePackageMatches (v p : Option String) (it : InventoryItem) : Bool :=
  truthy v && truthy p && truthy it.value && truthy it.package &&
  (pyNorm (getS it.value) == pyNorm (getS v)) &&
  (pyNorm (getS it.package) == pyNorm (getS p))

/-- `find_match` as the spec describes it: the first tier-3 hit in store
order if any; otherwise the first tier-2 candidate in store order that has an
MPN populated, else the first tier-2 candidate in store order; otherwise
nothing. -/
def findMatchSpec (inv : Inventory) (m v p : Option String) : Option InventoryItem :=
  match inv.inventory_parts.find? (mpnMatches m) with
  | some it => some it
  | none =>
    let cands := inv.inventory_parts.filter (valuePackageMatches v p)
    match cands.find? (fun it => truthy it.mpn) with
    | some it => some it
    | none => cands.head?

/-- The numeric suffix the code extracts from a well-formed identifier:
`part_id` truthy, starting with `"INV"`, with an `int()`-parsable remainder. -/
def invSuffix (p : InventoryItem) : Option Int :=
  if truthy p.part_id && pyStartsWith (getS p.part_id) "INV" then
    pyInt (pyDrop (getS p.part_id) 3)
  else none

/-- The current maximum numeric suffix over well-formed identifiers
(0 when there is none larger). -/
def maxSuffix (inv : Inventory) : Int :=
  (inv.inventory_parts.filterMap invSuffix).foldl max 0

/-- Concrete store with suffixes 1, 3 and 7. -/
def inv137 : Inventory :=
  ⟨[{ part_id := some "INV001" }, { part_id := some "INV003" },
    { part_id := some "INV007" }]⟩

/-- Uniqueness of truthy (non-empty, non-`None`) part identifiers. -/
def uniqIds (inv : Inventory) : Prop :=
  inv.inventory_parts.Pairwise
    (fun a b => truthy a.part_id = true → a.part_id ≠ b.part_id)

/-- An item whose identifier is the empty string. -/
def emptyIdItem : InventoryItem := { part_id := some "" }

/-- Trusted footprint provenances. -/
def trustedSource (s : String) : Prop :=
  s = "manual" ∨ s = "kit_ingest_verified"

instance (s : String) : Decidable (trustedSource s) := by
  unfold trustedSource
  infer_instance

/-- Concrete environment pieces for the C5 witness: a trusted inventory hit
adopted onto a bare BOM line. -/
def itManual : InventoryItem :=
  { part_id := some "INV001", value := some "10k", package := some "0805",
    footprint := some "R_0805", footprint_source := "manual" }

/-- A benign concrete environment: one API result with a KiCad footprint
download link and no manufacturer field, downloads succeed. -/
def envC6 : Env :=
  { inventory := ⟨[]⟩
    check_local := fun _ => .ok false
    ds_download := fun _ => .ok false
    footprint_exists := fun _ => .ok false
    symbol_exists := fun _ => .ok false
    search_by_mpn := fun _ => .ok [{ download_url_kicad_fp := some "u" }]
    download_asset := fun _ _ _ => .ok (some "p")
    suggest_footprint := fun _ => .ok none
    extract_text := fun _ => .ok none
    check_pin := fun _ _ => .ok none
    check_pkg := fun _ _ => .ok none
    calc_health := fun _ => .ok 0 }

/-- Environment whose library lookup reports every footprint missing. -/
def envC3 : Env := { envC6 with footprint_exists := fun _ => .ok false }

/-- Component that enters the pass already marked verified with an assigned
footprint (a prior trusted pass), whose footprint the libraries do not
contain. -/
def cC3 : Component :=
  { ref := "U2", footprint := some "Lib:FP",
    status := { footprint_verified := .vtrue } }

/-- Benign environment for the C7 counterexample: empty inventory, all
lookups succeed, the assigned footprint exists. -/
def envC7 : Env := { envC6 with footprint_exists := fun _ => .ok true }

/-- A component entering the pass with `api_downloaded = true` from a
previous pass (and a verified existing footprint, so the pass changes
nothing else on purpose). -/
def cC7 : Component :=
  { ref := "U3", footprint := some "Lib:FP",
    status := { api_downloaded := true, footprint_verified := .vtrue } }

/-- A bare component: no footprint, MPN or package, with a non-default
`footprint_verified` that a pass must preserve. -/
def cBare : Component :=
  { ref := "R9", status := { footprint_verified := .review_pending } }

/-- One pipeline operation, as the spec enumerates them: reconciliation
against a store, datasheet check, asset acquisition, symbol check, scoring.
The component state it acts on is threaded explicitly. -/
inductive PipeOp where
  | reconcile (inv : Inventory)
  | datasheet (env : Env)
  | acquisition (env : Env)
  | symbolCheck (env : Env)
  | scoring (env : Env)

/-- Apply one pipeline operation to a component (for a raising stage, the
partially updated component is kept, as the engine leaves it in place). -/
def applyOp (c : Component) : PipeOp → Component
  | .reconcile inv => reconcileStep inv c
  | .datasheet env => (datasheetStep env c).1
  | .acquisition env => (acquisitionStep env c).1
  | .symbolCheck env => (symbolStep env c).1
  | .scoring env => (healthStep env c).1

/-- An inventory item with untrusted provenance that matches `cW` at tier 2. -/
def itUnknownSrc : InventoryItem :=
  { part_id := some "INV009", value := some "10k", package := some "0805",
    footprint := some "R_0805", footprint_source := "unknown" }

/-- A full pass (all five operations in order) over an untrusted store. -/
def opsW : List PipeOp :=
  [.reconcile ⟨[itUnknownSrc]⟩, .datasheet envC7, .acquisition envC7,
   .symbolCheck envC7, .scoring envC7]

/-- Candidate BOM line for the C1 witness. -/
def cW : Component := { ref := "R1", value := "10k", package := some "0805" }

/-- Environment whose part lookup raises. -/
def envErr : Env := { envC6 with search_by_mpn := fun _ => .error "boom" }

/-- Component with an MPN that will hit the raising lookup. -/
def cErr : Component := { ref := "U9", mpn := some "X1" }

/-! ## Theorems -/

@[simp] theorem addNote_status (c : Component) (s : String) :
    (addNote c s).status = c.status := rfl

@[simp] theorem addNote_footprint (c : Component) (s : String) :
    (addNote c s).footprint = c.footprint := rfl

@[simp] theorem addNote_datasheet_url (c : Component) (s : String) :
    (addNote c s).datasheet_url = c.datasheet_url := rfl

@[simp] theorem addNote_mpn (c : Component) (s : String) :
    (addNote c s).mpn = c.mpn := rfl

@[simp] theorem addNote_package (c : Component) (s : String) :
    (addNote c s).package = c.package := rfl

@[simp] theorem addNote_source_info (c : Component) (s : String) :
    (addNote c s).source_info = c.source_info := rfl

theorem mem_addNote {n : String} {c : Component} (s : String)
    (h : n ∈ c.llm_notes) : n ∈ (addNote c s).llm_notes := by
  simp [addNote]
  exact Or.inl h

/-- `datasheetStep` only writes `status.datasheet_local` and the notes. -/
theorem datasheetStep_frame (env : Env) (c : Component) :
    ((datasheetStep env c).1).footprint = c.footprint ∧
    ((datasheetStep env c).1).mpn = c.mpn ∧
    ((datasheetStep env c).1).package = c.package ∧
    ((datasheetStep env c).1).datasheet_url = c.datasheet_url ∧
    ((datasheetStep env c).1).status.footprint_verified = c.status.footprint_verified ∧
    ((datasheetStep env c).1).status.api_downloaded = c.status.api_downloaded ∧
    ((datasheetStep env c).1).source_info = c.source_info := by
  simp only [datasheetStep]
  repeat' split
  all_goals simp_all

/-- `symbolStep` only writes `status.symbol_exists` and the notes. -/
theorem symbolStep_frame (env : Env) (c : Component) :
    ((symbolStep env c).1).footprint = c.footprint ∧
    ((symbolStep env c).1).datasheet_url = c.datasheet_url ∧
    ((symbolStep env c).1).status.footprint_verified = c.status.footprint_verified ∧
    ((symbolStep env c).1).status.api_downloaded = c.status.api_downloaded ∧
    ((symbolStep env c).1).status.datasheet_local = c.status.datasheet_local := by
  simp only [symbolStep]
  repeat' split
  all_goals simp_all

theorem symbolStep_notes_mem (env : Env) {n : String} {c : Component}
    (h : n ∈ c.llm_notes) : n ∈ ((symbolStep env c).1).llm_notes := by
  simp only [symbolStep]
  repeat' split
  all_goals simp_all [addNote]

/-- `llmDocStep` only appends notes. -/
theorem llmDocStep_frame (env : Env) (flag : Bool) (c : Component) :
    ((llmDocStep env flag c).1).status = c.status ∧
    ((llmDocStep env flag c).1).footprint = c.footprint ∧
    ((llmDocStep env flag c).1).datasheet_url = c.datasheet_url := by
  simp only [llmDocStep]
  repeat' split
  all_goals simp_all

theorem llmDocStep_notes_mem (env : Env) (flag : Bool) {n : String} {c : Component}
    (h : n ∈ c.llm_notes) : n ∈ ((llmDocStep env flag c).1).llm_notes := by
  simp only [llmDocStep]
  repeat' split
  all_goals simp_all [addNote]

/-- `suggestionStep` never touches `api_downloaded`, `datasheet_url` or
`footprint_verified`-to-`vtrue`; it can only set `footprint_verified` to
`vfalse`. -/
theorem suggestionStep_api (env : Env) (c : Component) :
    (suggestionStep env c).status.api_downloaded = c.status.api_downloaded := by
  simp only [suggestionStep]
  repeat' split
  all_goals simp_all

theorem suggestionStep_url (env : Env) (c : Component) :
    (suggestionStep env c).datasheet_url = c.datasheet_url := by
  simp only [suggestionStep]
  repeat' split
  all_goals simp_all

theorem suggestionStep_vtrue (env : Env) (c : Component)
    (h : (suggestionStep env c).status.footprint_verified = .vtrue) :
    c.status.footprint_verified = .vtrue := by
  simp only [suggestionStep] at h
  repeat' split at h
  all_goals simp_all

theorem suggestionStep_notes_mem (env : Env) {n : String} {c : Component}
    (h : n ∈ c.llm_notes) : n ∈ (suggestionStep env c).llm_notes := by
  simp only [suggestionStep]
  repeat' split
  all_goals simp_all [addNote]

/-- `apiSearchStep` never touches `datasheet_url` and can only set
`footprint_verified` to `review_pending`. -/
theorem apiSearchStep_url (env : Env) (c : Component) :
    (apiSearchStep env c).datasheet_url = c.datasheet_url := by
  simp only [apiSearchStep]
  repeat' split
  all_goals simp_all

theorem apiSearchStep_vtrue (env : Env) (c : Component)
    (h : (apiSearchStep env c).status.footprint_verified = .vtrue) :
    c.status.footprint_verified = .vtrue := by
  simp only [apiSearchStep] at h
  repeat' split at h
  all_goals simp_all

/-- The opening of the acquisition stage resets the three per-pass flags. -/
theorem assignedCheck_resets (env : Env) (c : Component) :
    ((assignedCheck env c).1.1).status.api_downloaded = false ∧
    ((assignedCheck env c).1.1).status.llm_suggested = false := by
  simp only [assignedCheck]
  repeat' split
  all_goals simp_all

theorem assignedCheck_url (env : Env) (c : Component) :
    ((assignedCheck env c).1.1).datasheet_url = c.datasheet_url := by
  simp only [assignedCheck]
  repeat' split
  all_goals simp_all

theorem assignedCheck_vtrue (env : Env) (c : Component)
    (h : ((assignedCheck env c).1.1).status.footprint_verified = .vtrue) :
    c.status.footprint_verified = .vtrue := by
  simp only [assignedCheck] at h
  repeat' split at h
  all_goals simp_all

/-- Peeling a conditional application through a `footprint_verified`
implication. -/
theorem fv_of_ite (P : Prop) [Decidable P] (f : Component → Component)
    (hf : ∀ x, (f x).status.footprint_verified = .vtrue →
      x.status.footprint_verified = .vtrue)
    (x : Component)
    (h : (if P then f x else x).status.footprint_verified = .vtrue) :
    x.status.footprint_verified = .vtrue := by
  split at h
  · exact hf x h
  · exact h

theorem acquisitionStep_url (env : Env) (c : Component) :
    ((acquisitionStep env c).1).datasheet_url = c.datasheet_url := by
  have ha := assignedCheck_url env c
  rcases heq : assignedCheck env c with ⟨⟨c1, skip⟩, err⟩
  rw [heq] at ha
  simp at ha
  cases err with
  | some e => simp [acquisitionStep, heq, ha]
  | none =>
    by_cases hs : skip = true
    · simp [acquisitionStep, heq, hs, ha]
    · simp only [acquisitionStep, heq, hs, if_false, Bool.false_eq_true, ite_false]
      repeat' split
      all_goals simp [suggestionStep_url, apiSearchStep_url, ha]

theorem acquisitionStep_vtrue (env : Env) (c : Component)
    (h : ((acquisitionStep env c).1).status.footprint_verified = .vtrue) :
    c.status.footprint_verified = .vtrue := by
  rcases heq : assignedCheck env c with ⟨⟨c1, skip⟩, err⟩
  have hbase : c1.status.footprint_verified = .vtrue →
      c.status.footprint_verified = .vtrue := by
    intro hx
    apply assignedCheck_vtrue env c
    rw [heq]
    exact hx
  cases err with
  | some e =>
    simp only [acquisitionStep, heq] at h
    exact hbase h
  | none =>
    by_cases hs : skip = true
    · simp only [acquisitionStep, heq, hs, ite_true] at h
      exact hbase h
    · simp only [acquisitionStep, heq, hs, Bool.false_eq_true, ite_false] at h
      exact hbase (fv_of_ite _ _ (fun x => apiSearchStep_vtrue env x) c1
        (fv_of_ite _ _ (fun x => suggestionStep_vtrue env x) _ h))

/-- The head of a list is a member. -/
theorem mem_of_head? {α : Type} {l : List α} {a : α} (h : l.head? = some a) :
    a ∈ l := by
  cases l with
  | nil => cases h
  | cons x xs =>
    simp [List.head?] at h
    subst h
    exact List.mem_cons_self x xs

/-- Anything `find_match` returns is a member of the store. -/
theorem find_match_mem (inv : Inventory) (m v p : Option String)
    (it : InventoryItem) (h : inv.find_match m v p = some it) :
    it ∈ inv.inventory_parts := by
  simp only [Inventory.find_match] at h
  split at h
  · next hfind =>
    split at hfind
    · cases h
      exact List.mem_of_find?_eq_some hfind
    · cases hfind
  · split at h
    · split at h
      · next q l hq =>
        injection h with h'
        subst h'
        have hs := List.mem_cons_self q l
        rw [← hq] at hs
        exact List.mem_of_mem_filter (List.mem_of_mem_filter hs)
      · exact List.mem_of_mem_filter (mem_of_head? h)
    · cases h

/-- The reconcile stage sets `footprint_verified = True` only on a trusted
inventory hit; with no hit the status record is untouched. -/
theorem reconcileStep_vtrue (inv : Inventory) (c : Component)
    (h : (reconcileStep inv c).status.footprint_verified = .vtrue) :
    c.status.footprint_verified = .vtrue ∨
      ∃ item ∈ inv.inventory_parts,
        item.footprint_source = "manual" ∨ item.footprint_source = "kit_ingest_verified" := by
  simp only [reconcileStep] at h
  split at h
  · next item hit =>
    split at h
    · next htr => exact Or.inr ⟨item, find_match_mem _ _ _ _ _ hit, htr⟩
    · simp_all
  · exact Or.inl h

theorem reconcileStep_url (inv : Inventory) (c : Component) :
    (reconcileStep inv c).datasheet_url = c.datasheet_url := by
  simp only [reconcileStep]
  repeat' split
  all_goals simp_all

/-- With no inventory hit, the reconcile stage writes only `source_info`. -/
theorem reconcileStep_none (inv : Inventory) (c : Component)
    (h : inv.find_match c.mpn (some c.value) c.package = none) :
    (reconcileStep inv c).status = c.status ∧
    (reconcileStep inv c).footprint = c.footprint ∧
    (reconcileStep inv c).mpn = c.mpn ∧
    (reconcileStep inv c).package = c.package ∧
    (reconcileStep inv c).value = c.value ∧
    (reconcileStep inv c).llm_notes = c.llm_notes := by
  simp [reconcileStep, h]

/-- `healthStep` only writes `health_score`. -/
theorem healthStep_frame (env : Env) (c : Component) :
    ((healthStep env c).1).status = c.status ∧
    ((healthStep env c).1).footprint = c.footprint ∧
    ((healthStep env c).1).datasheet_url = c.datasheet_url ∧
    ((healthStep env c).1).llm_notes = c.llm_notes := by
  simp only [healthStep]
  repeat' split
  all_goals simp_all

theorem find?_const_false {α : Type} (l : List α) :
    l.find? (fun _ => false) = none := by
  induction l with
  | nil => rfl
  | cons x xs ih => simp [List.find?, ih]

theorem filter_const_false {α : Type} (l : List α) :
    l.filter (fun _ => false) = [] := by
  induction l with
  | nil => rfl
  | cons x xs ih => simp [List.filter, ih]

/-- First element satisfying a predicate: `find?` agrees with
`filter`-then-head. -/
theorem find?_eq_head?_filter {α : Type} (q : α → Bool) (l : List α) :
    l.find? q = (l.filter q).head? := by
  induction l with
  | nil => rfl
  | cons x xs ih =>
    cases hx : q x with
    | true =>
      rw [List.find?_cons_of_pos _ hx, List.filter_cons_of_pos hx]
      rfl
    | false =>
      rw [List.find?_cons_of_neg _ (by simp [hx]), List.filter_cons_of_neg (by simp [hx]), ih]

/-- The tier-2 part of the code agrees with the tier-2 part of the spec. -/
theorem tier2_eq (inv : Inventory) (v p : Option String) :
    (if truthy v && truthy p then
       match (inv.inventory_parts.filter (fun q =>
           truthy q.value && truthy q.package &&
           (pyNorm (getS q.value) == pyNorm (getS v)) &&
           (pyNorm (getS q.package) == pyNorm (getS p)))).filter (fun q => truthy q.mpn) with
       | q :: _ => some q
       | [] => (inv.inventory_parts.filter (fun q =>
           truthy q.value && truthy q.package &&
           (pyNorm (getS q.value) == pyNorm (getS v)) &&
           (pyNorm (getS q.package) == pyNorm (getS p)))).head?
     else none)
    = (match (inv.inventory_parts.filter (valuePackageMatches v p)).find?
          (fun it => truthy it.mpn) with
       | some it => some it
       | none => (inv.inventory_parts.filter (valuePackageMatches v p)).head?) := by
  cases hvp2 : (truthy v && truthy p) with
  | false =>
    have hpred : valuePackageMatches v p = fun _ => false := by
      funext it
      simp only [valuePackageMatches]
      rw [hvp2]
      simp
    rw [hpred, filter_const_false]
    simp [hvp2]
  | true =>
    have hpred : valuePackageMatches v p = fun it =>
        truthy it.value && truthy it.package &&
        (pyNorm (getS it.value) == pyNorm (getS v)) &&
        (pyNorm (getS it.package) == pyNorm (getS p)) := by
      funext it
      simp only [valuePackageMatches]
      rw [hvp2]
      simp
    rw [hpred, find?_eq_head?_filter]
    cases hf : (inv.inventory_parts.filter (fun q =>
        truthy q.value && truthy q.package &&
        (pyNorm (getS q.value) == pyNorm (getS v)) &&
        (pyNorm (getS q.package) == pyNorm (getS p)))).filter (fun q => truthy q.mpn) with
    | nil => simp [hf]
    | cons a l => simp [hf]

/-- C2: for every store and candidate, `find_match` returns the first item in
store order whose MPN equals the candidate's MPN under case-insensitive
whitespace-trimmed comparison, stopping at the first such hit; only if no
tier-3 hit exists does it attempt tier 2 (case-insensitive trimmed equality
on both value and package), where among all tier-2 candidates it returns the
first in store order with an MPN populated, else the first tier-2 candidate
in store order; with no tier-2 candidate it returns nothing.  `findMatchSpec`
is that description written out verbatim; an MPN match therefore always
outranks a value+package match. -/
theorem C2_find_match_strict_priority :
    ∀ (inv : Inventory) (m v p : Option String),
      inv.find_match m v p = findMatchSpec inv m v p := by
  intro inv m v p
  unfold Inventory.find_match findMatchSpec
  cases hm : truthy m with
  | false =>
    have hpred : mpnMatches m = fun _ => false := by
      funext it
      simp only [mpnMatches]
      rw [hm]
      simp
    rw [hpred, find?_const_false]
    exact tier2_eq inv v p
  | true =>
    have hpred : mpnMatches m =
        fun it => truthy it.mpn && (pyNorm (getS it.mpn) == pyNorm (getS m)) := by
      funext it
      simp only [mpnMatches]
      rw [hm]
      simp
    rw [hpred]
    cases hfind : inv.inventory_parts.find?
        (fun q => truthy q.mpn && (pyNorm (getS q.mpn) == pyNorm (getS m))) with
    | some it => rfl
    | none => exact tier2_eq inv v p

theorem codeStep_eq (m : Int) (x : InventoryItem) :
    (if truthy x.part_id && pyStartsWith (getS x.part_id) "INV" then
        match pyInt (pyDrop (getS x.part_id) 3) with
        | some n => if n > m then n else m
        | none => m
      else m)
    = (match invSuffix x with | some n => max m n | none => m) := by
  simp only [invSuffix]
  split
  · cases pyInt (pyDrop (getS x.part_id) 3) with
    | none => rfl
    | some n =>
      simp only
      rcases le_or_lt n m with h | h
      · rw [if_neg (by omega), max_eq_left h]
      · rw [if_pos h, max_eq_right h.le]
  · rfl

theorem foldl_code_eq_max (l : List InventoryItem) (m : Int) :
    l.foldl (fun m p =>
      if truthy p.part_id && pyStartsWith (getS p.part_id) "INV" then
        match pyInt (pyDrop (getS p.part_id) 3) with
        | some n => if n > m then n else m
        | none => m
      else m) m
    = (l.filterMap invSuffix).foldl max m := by
  induction l generalizing m with
  | nil => rfl
  | cons x xs ih =>
    rw [List.foldl_cons, codeStep_eq, List.filterMap_cons]
    cases hx : invSuffix x with
    | none => exact ih m
    | some n =>
      rw [List.foldl_cons]
      exact ih (max m n)

/-- C8: on an empty store `get_next_part_id` returns the first identifier of
the sequence, `"INV001"`; on a non-empty store it returns `"INV"` followed by
the zero-padded successor of the maximum numeric suffix found among
well-formed identifiers (e.g. suffixes 1, 3, 7 give `"INV008"`, exercised by
the witness). -/
theorem C8_next_id :
    (Inventory.get_next_part_id ⟨[]⟩ = "INV001") ∧
    (∀ inv : Inventory, inv.inventory_parts ≠ [] →
      inv.get_next_part_id = "INV" ++ pyFormat3 (maxSuffix inv + 1)) := by
  constructor
  · rfl
  · intro inv h
    simp only [Inventory.get_next_part_id]
    rw [if_neg (by simp [List.isEmpty_iff, h]), foldl_code_eq_max]
    rfl

theorem C8_next_id_witness :
    inv137.inventory_parts ≠ [] ∧
    Inventory.get_next_part_id inv137 = "INV" ++ pyFormat3 (maxSuffix inv137 + 1) ∧
    Inventory.get_next_part_id inv137 = "INV008" :=
  ⟨by decide, C8_next_id.2 inv137 (by decide), by rfl⟩

/-- C9 counterexample: the duplicate check skips items with a falsy
(`None`/empty) `part_id`, so adding an item whose identifier equals an
existing empty identifier succeeds and duplicates it — the claim's
"returns false exactly when an item with the same identifier already exists"
and the uniqueness invariant both fail at this input. -/
theorem C9_add_part_counterexample :
    (∃ q ∈ (Inventory.mk [emptyIdItem]).inventory_parts,
        q.part_id = emptyIdItem.part_id) ∧
    (Inventory.add_part ⟨[emptyIdItem]⟩ emptyIdItem).2 = true ∧
    (Inventory.add_part ⟨[emptyIdItem]⟩ emptyIdItem).1.inventory_parts =
      [emptyIdItem, emptyIdItem] := by
  refine ⟨⟨emptyIdItem, by decide, rfl⟩, by decide, by decide⟩

/-- C9 (amended): `add_part` returns `false` (raising no exception and
leaving the store unchanged) exactly when an item with the same truthy
identifier already exists; items with a falsy (`None`/empty) identifier are
never treated as duplicates.  Otherwise the item is appended and `true` is
returned, so truthy part identifiers remain unique within a store after any
sequence of `add_part` operations. -/
theorem C9_add_part_amended :
    ∀ (inv : Inventory) (it : InventoryItem),
      ((inv.add_part it).2 = false ↔
        ∃ q ∈ inv.inventory_parts, truthy q.part_id = true ∧ q.part_id = it.part_id) ∧
      ((inv.add_part it).2 = false → (inv.add_part it).1 = inv) ∧
      ((inv.add_part it).2 = true →
        (inv.add_part it).1.inventory_parts = inv.inventory_parts ++ [it]) ∧
      (uniqIds inv → uniqIds (inv.add_part it).1) ∧
      (∀ its : List InventoryItem, uniqIds inv →
        uniqIds (its.foldl (fun s x => (s.add_part x).1) inv)) := by
  have key : ∀ (inv : Inventory) (it : InventoryItem),
      uniqIds inv → uniqIds (inv.add_part it).1 := by
    intro inv it hu
    unfold Inventory.add_part
    split
    · exact hu
    · next hany =>
      rw [List.any_eq_true] at hany
      push_neg at hany
      unfold uniqIds at hu ⊢
      simp only [List.pairwise_append]
      refine ⟨hu, List.pairwise_singleton _ _, ?_⟩
      intro a ha b hb htr
      simp only [List.mem_singleton] at hb
      subst hb
      intro heq
      exact hany a ha (by rw [Bool.and_eq_true, beq_iff_eq]; exact ⟨htr, heq⟩)
  intro inv it
  refine ⟨?_, ?_, ?_, key inv it, ?_⟩
  · unfold Inventory.add_part
    split
    · next hany =>
      rw [List.any_eq_true] at hany
      obtain ⟨q, hq, hpred⟩ := hany
      rw [Bool.and_eq_true, beq_iff_eq] at hpred
      exact iff_of_true rfl ⟨q, hq, hpred.1, hpred.2⟩
    · next hany =>
      rw [List.any_eq_true] at hany
      push_neg at hany
      refine iff_of_false (by simp) ?_
      rintro ⟨q, hq, htr, heq⟩
      exact hany q hq (by rw [Bool.and_eq_true, beq_iff_eq]; exact ⟨htr, heq⟩)
  · unfold Inventory.add_part
    split
    · intro _; rfl
    · simp
  · unfold Inventory.add_part
    split
    · simp
    · intro _; rfl
  · intro its
    induction its generalizing inv with
    | nil => intro h; exact h
    | cons x xs ih =>
      intro h
      exact ih ((inv.add_part x).1) (key inv x h)

/-- C9 witness: a concrete run of the amended theorem, on a store where a
part with the same truthy identifier exists. -/
theorem C9_add_part_witness :
    ((Inventory.add_part inv137 { part_id := some "INV001" }).2 = false ↔
      ∃ q ∈ inv137.inventory_parts, truthy q.part_id = true ∧
        q.part_id = some "INV001") ∧
    ((Inventory.add_part inv137 { part_id := some "INV001" }).2 = false →
      (Inventory.add_part inv137 { part_id := some "INV001" }).1 = inv137) :=
  ⟨(C9_add_part_amended inv137 { part_id := some "INV001" }).1,
   (C9_add_part_amended inv137 { part_id := some "INV001" }).2.1⟩

/-- C5 counterexample: on no inventory hit and no pre-existing provenance
note the code tags the component `"BoM Defined"`, not `"BOM Defined"` as the
claim spells it. -/
theorem C5_reconcile_counterexample :
    ({ ref := "R1" } : Component).source_info = none ∧
    Inventory.find_match ⟨[]⟩ ({ ref := "R1" } : Component).mpn
      (some ({ ref := "R1" } : Component).value)
      ({ ref := "R1" } : Component).package = none ∧
    (reconcileStep ⟨[]⟩ { ref := "R1" }).source_info = some "BoM Defined" ∧
    (reconcileStep ⟨[]⟩ { ref := "R1" }).source_info ≠ some "BOM Defined" := by
  refine ⟨rfl, by decide, by decide, by decide⟩

/-- C5 (amended): the reconcile stage attempts `find_match`; on a hit it
records provenance `"Inventory Match: <id>"`, adopts the inventory item's
footprint exactly when the component has no footprint assigned, and sets
`footprint_verified = True` exactly when the item's footprint provenance is
`manual` or `kit_ingest_verified`, else `False`; on no hit it preserves any
truthy pre-existing provenance note, else tags the component `"BoM Defined"`
(the code's spelling).  The `InventoryStore` argument is read-only in this
embedding — the stage returns only the updated `Component`, never a modified
store. -/
theorem C5_reconcile_contract :
    ∀ (inv : Inventory) (c : Component),
      (∀ item, inv.find_match c.mpn (some c.value) c.package = some item →
        (reconcileStep inv c).source_info =
          some ("Inventory Match: " ++ pyStr item.part_id) ∧
        (truthy c.footprint = false →
          (reconcileStep inv c).footprint = item.footprint) ∧
        (truthy c.footprint = true →
          (reconcileStep inv c).footprint = c.footprint) ∧
        ((reconcileStep inv c).status.footprint_verified = .vtrue ↔
          trustedSource item.footprint_source) ∧
        (¬ trustedSource item.footprint_source →
          (reconcileStep inv c).status.footprint_verified = .vfalse)) ∧
      (inv.find_match c.mpn (some c.value) c.package = none →
        (truthy c.source_info = true →
          (reconcileStep inv c).source_info = c.source_info) ∧
        (truthy c.source_info = false →
          (reconcileStep inv c).source_info = some "BoM Defined")) := by
  intro inv c
  constructor
  · intro item hit
    simp only [reconcileStep, hit]
    refine ⟨?_, ?_, ?_, ?_, ?_⟩
    · split <;> split <;> simp_all
    · intro hfp
      split <;> simp_all
    · intro hfp
      split <;> simp_all
    · constructor
      · intro hv
        by_contra htr
        rw [if_neg (by exact htr)] at hv
        split at hv <;> simp_all
      · intro htr
        rw [if_pos (by exact htr)]
    · intro htr
      rw [if_neg (by exact htr)]
  · intro hmiss
    simp only [reconcileStep, hmiss]
    constructor
    · intro htr
      simp [htr]
    · intro htr
      simp [htr]

theorem C5_reconcile_witness :
    Inventory.find_match ⟨[itManual]⟩ none (some "10k") (some "0805") =
      some itManual ∧
    (reconcileStep ⟨[itManual]⟩
        { ref := "R1", value := "10k", package := some "0805" }).source_info =
      some ("Inventory Match: " ++ pyStr itManual.part_id) ∧
    (reconcileStep ⟨[itManual]⟩
        { ref := "R1", value := "10k", package := some "0805" }).footprint =
      itManual.footprint ∧
    (reconcileStep ⟨[itManual]⟩
        { ref := "R1", value := "10k", package := some "0805" }).status.footprint_verified =
      .vtrue := by
  have h := (C5_reconcile_contract ⟨[itManual]⟩
    { ref := "R1", value := "10k", package := some "0805" }).1 itManual (by decide)
  exact ⟨by decide, h.1, h.2.1 (by decide), h.2.2.2.1.mpr (by decide)⟩

/-- C6 counterexample: on a successful download the recorded provenance is
`"API Download Pending (<manufacturer or N/A>)"`, not the bare string
`"API Download Pending"` the claim names. -/
theorem C6_api_counterexample :
    (apiSearchStep envC6 { ref := "U1", mpn := some "MPN1" }).status.api_downloaded
      = true ∧
    (apiSearchStep envC6 { ref := "U1", mpn := some "MPN1" }).source_info =
      some "API Download Pending (N/A)" ∧
    (apiSearchStep envC6 { ref := "U1", mpn := some "MPN1" }).source_info ≠
      some "API Download Pending" := by
  refine ⟨by decide, by decide, by decide⟩

/-- C6 (amended): for a component entering ApiSearch whose part lookup
returns candidates, the engine selects the first result in returned order
advertising a downloadable KiCad footprint, requests the download into the
per-MPN pending-review directory `libs/review/<MPN>`, and on success sets
`api_downloaded = true`, sets `footprint_verified` to the distinct
`review_pending` value (never `true`), and records the provenance string
`"API Download Pending (<manufacturer, N/A when absent>)"` — a string
beginning with `"API Download Pending"`, not equal to it. -/
theorem C6_api_acquisition :
    ∀ (env : Env) (c : Component) (results : List ApiResult) (r : ApiResult)
      (path : String),
      env.search_by_mpn (getS c.mpn) = .ok results →
      results.find? (fun x => truthy x.download_url_kicad_fp) = some r →
      env.download_asset r "footprint" ("libs/review/" ++ getS c.mpn) =
        .ok (some path) →
      (apiSearchStep env c).status.api_downloaded = true ∧
      (apiSearchStep env c).status.footprint_verified = .review_pending ∧
      (apiSearchStep env c).status.footprint_verified ≠ .vtrue ∧
      (apiSearchStep env c).source_info =
        some ("API Download Pending (" ++ r.manufacturer.getD "N/A" ++ ")") := by
  intro env c results r path hs hf hd
  have hne : results.isEmpty = false := by
    cases results
    · cases hf
    · rfl
  simp only [apiSearchStep, hs, hne, hf, hd]
  simp [addNote]

theorem C6_api_acquisition_witness :
    (apiSearchStep envC6 { ref := "U1", mpn := some "MPN1" }).status.api_downloaded
      = true ∧
    (apiSearchStep envC6 { ref := "U1", mpn := some "MPN1" }).status.footprint_verified
      = .review_pending ∧
    (apiSearchStep envC6 { ref := "U1", mpn := some "MPN1" }).status.footprint_verified
      ≠ .vtrue ∧
    (apiSearchStep envC6 { ref := "U1", mpn := some "MPN1" }).source_info =
      some ("API Download Pending (" ++
        ({ download_url_kicad_fp := some "u" } : ApiResult).manufacturer.getD "N/A" ++ ")") :=
  C6_api_acquisition envC6 { ref := "U1", mpn := some "MPN1" }
    [{ download_url_kicad_fp := some "u" }] { download_url_kicad_fp := some "u" } "p"
    rfl rfl rfl

/-- C3: after the assigned-footprint check, the API/LLM search is skipped
exactly when a footprint name is present and `footprint_verified` is `True`;
an assigned footprint that is not found in the libraries forces
`footprint_verified = False` and re-enables the search even when the
component entered the pass verified.  When the gate says skip, the
acquisition stage returns the component unchanged; otherwise it proceeds to
the (conditional) ApiSearch and SuggestionFallback branches. -/
theorem C3_skip_gate :
    ∀ (env : Env) (c c1 : Component) (skip : Bool),
      assignedCheck env c = ((c1, skip), none) →
      (skip = (truthy c1.footprint &&
        decide (c1.status.footprint_verified = .vtrue))) ∧
      (skip = true → acquisitionStep env c = (c1, none)) ∧
      (skip = false → acquisitionStep env c =
        ((if !truthy (if truthy c1.mpn then apiSearchStep env c1 else c1).footprint &&
              !(if truthy c1.mpn then apiSearchStep env c1 else c1).status.api_downloaded &&
              truthy (if truthy c1.mpn then apiSearchStep env c1 else c1).package then
            suggestionStep env (if truthy c1.mpn then apiSearchStep env c1 else c1)
          else (if truthy c1.mpn then apiSearchStep env c1 else c1)), none)) ∧
      (truthy c.footprint = true →
        env.footprint_exists (getS c.footprint) = .ok false →
        c1.status.footprint_verified = .vfalse ∧ skip = false) := by
  intro env c c1 skip h
  refine ⟨?_, ?_, ?_, ?_⟩
  · simp only [assignedCheck] at h
    repeat' split at h
    all_goals
      injection h with h1 h2
    all_goals
      try (injection h1 with hc hs; subst hc; subst hs)
    all_goals simp_all
  · intro hs
    subst hs
    simp [acquisitionStep, h]
  · intro hs
    subst hs
    simp [acquisitionStep, h]
  · intro htr hex
    simp only [assignedCheck, htr, hex] at h
    simp only [if_pos] at h
    repeat' split at h
    all_goals
      injection h with h1 h2
    all_goals
      try (injection h1 with hc hs; subst hc; subst hs)
    all_goals simp_all

theorem C3_skip_gate_witness :
    assignedCheck envC3 cC3 =
      (((assignedCheck envC3 cC3).1.1, (assignedCheck envC3 cC3).1.2), none) ∧
    ((assignedCheck envC3 cC3).1.2 =
      (truthy (assignedCheck envC3 cC3).1.1.footprint &&
        decide ((assignedCheck envC3 cC3).1.1.status.footprint_verified = .vtrue))) ∧
    truthy cC3.footprint = true ∧
    envC3.footprint_exists (getS cC3.footprint) = .ok false ∧
    ((assignedCheck envC3 cC3).1.1.status.footprint_verified = .vfalse ∧
      (assignedCheck envC3 cC3).1.2 = false) :=
  ⟨rfl, (C3_skip_gate envC3 cC3 _ _ rfl).1, by decide, rfl,
   (C3_skip_gate envC3 cC3 _ _ rfl).2.2.2 (by decide) rfl⟩

theorem seqStage_ok (c : Component) (f : Component → StageResult) :
    seqStage (c, none) f = f c := rfl

theorem seqStage_err (c : Component) (e : String) (f : Component → StageResult) :
    seqStage (c, some e) f = (c, some e) := rfl

theorem tail3_frame (env : Env) (flag : Bool) (x : Component) :
    ((seqStage (seqStage (symbolStep env x) (fun y => llmDocStep env flag y))
        (fun y => healthStep env y)).1).status.footprint_verified =
      x.status.footprint_verified ∧
    ((seqStage (seqStage (symbolStep env x) (fun y => llmDocStep env flag y))
        (fun y => healthStep env y)).1).status.api_downloaded =
      x.status.api_downloaded ∧
    ((seqStage (seqStage (symbolStep env x) (fun y => llmDocStep env flag y))
        (fun y => healthStep env y)).1).status.datasheet_local =
      x.status.datasheet_local ∧
    ((seqStage (seqStage (symbolStep env x) (fun y => llmDocStep env flag y))
        (fun y => healthStep env y)).1).datasheet_url = x.datasheet_url ∧
    (∀ n ∈ x.llm_notes,
      n ∈ ((seqStage (seqStage (symbolStep env x) (fun y => llmDocStep env flag y))
        (fun y => healthStep env y)).1).llm_notes) := by
  have hsf := symbolStep_frame env x
  have hsn : ∀ n ∈ x.llm_notes, n ∈ ((symbolStep env x).1).llm_notes :=
    fun n hn => symbolStep_notes_mem env hn
  rcases hsym : symbolStep env x with ⟨x1, e1⟩
  rw [hsym] at hsf hsn
  cases e1 with
  | some e =>
    simp only [seqStage_err]
    exact ⟨hsf.2.2.1, hsf.2.2.2.1, hsf.2.2.2.2, hsf.2.1, hsn⟩
  | none =>
    have hlf := llmDocStep_frame env flag x1
    have hln : ∀ n ∈ x1.llm_notes, n ∈ ((llmDocStep env flag x1).1).llm_notes :=
      fun n hn => llmDocStep_notes_mem env flag hn
    rcases hllm : llmDocStep env flag x1 with ⟨x2, e2⟩
    rw [hllm] at hlf hln
    simp only [seqStage_ok, hllm]
    cases e2 with
    | some e =>
      simp only [seqStage_err]
      refine ⟨?_, ?_, ?_, ?_, ?_⟩
      · rw [hlf.1, hsf.2.2.1]
      · rw [hlf.1, hsf.2.2.2.1]
      · rw [hlf.1, hsf.2.2.2.2]
      · rw [hlf.2.2, hsf.2.1]
      · exact fun n hn => hln n (hsn n hn)
    | none =>
      simp only [seqStage_ok]
      have hhf := healthStep_frame env x2
      refine ⟨?_, ?_, ?_, ?_, ?_⟩
      · rw [hhf.1, hlf.1, hsf.2.2.1]
      · rw [hhf.1, hlf.1, hsf.2.2.2.1]
      · rw [hhf.1, hlf.1, hsf.2.2.2.2]
      · rw [hhf.2.2.1, hlf.2.2, hsf.2.1]
      · intro n hn
        rw [hhf.2.2.2]
        exact hln n (hsn n hn)

/-- With no footprint, no MPN and no package, the acquisition stage only
resets the three per-pass flags. -/
theorem acquisitionStep_inert (env : Env) (x : Component)
    (hfp : truthy x.footprint = false) (hmpn : truthy x.mpn = false)
    (hpkg : truthy x.package = false) :
    acquisitionStep env x =
      ({ x with status := { x.status with
          footprint_exists := false, api_downloaded := false, llm_suggested := false } },
        none) := by
  simp [acquisitionStep, assignedCheck, hfp, hmpn, hpkg]

/-- C7 counterexample: `api_downloaded` enters the pass `true` and leaves it
`false` even though no stage failed — the per-pass flags are reset by the
acquisition stage, so not every `ComponentStatus` field persists. -/
theorem C7_status_counterexample :
    cC7.status.api_downloaded = true ∧
    (verify_component envC7 false cC7).2 = none ∧
    ((verify_component envC7 false cC7).1).status.api_downloaded = false := by
  refine ⟨rfl, by decide, by decide⟩

/-- C7 (amended): the diagnostic notes are cleared at the start of each pass
(the pass result is entirely independent of the incoming notes), and the
status record is not reset wholesale — `footprint_verified` in particular
persists whenever no stage updates it (no inventory hit, no footprint, no
MPN, no package).  However the per-pass flags `footprint_exists`,
`api_downloaded` and `llm_suggested` are reset to `false` at the start of
the acquisition stage, so those three fields do not persist across passes. -/
theorem C7_pass_frame :
    (∀ (env : Env) (flag : Bool) (c : Component) (l : List String),
      verify_component env flag { c with llm_notes := l } =
        verify_component env flag c) ∧
    (∀ (env : Env) (c : Component),
      ((assignedCheck env c).1.1).status.api_downloaded = false ∧
      ((assignedCheck env c).1.1).status.llm_suggested = false) ∧
    (∀ (env : Env) (flag : Bool) (c : Component),
      env.inventory.find_match c.mpn (some c.value) c.package = none →
      truthy c.footprint = false → truthy c.mpn = false →
      truthy c.package = false →
      ((verify_component env flag c).1).status.footprint_verified =
        c.status.footprint_verified) := by
  refine ⟨?_, assignedCheck_resets, ?_⟩
  · intro env flag c l
    cases c
    rfl
  · intro env flag c hmatch hfp hmpn hpkg
    have hrec := reconcileStep_none env.inventory { c with llm_notes := [] }
      (by exact hmatch)
    have hdf := datasheetStep_frame env
      (reconcileStep env.inventory { c with llm_notes := [] })
    simp only [verify_component]
    rcases hds : datasheetStep env
        (reconcileStep env.inventory { c with llm_notes := [] }) with ⟨c2, e2⟩
    rw [hds] at hdf
    have h2fv : c2.status.footprint_verified = c.status.footprint_verified := by
      have := hdf.2.2.2.2.1
      rw [this, hrec.1]
    have h2fp : truthy c2.footprint = false := by
      have := hdf.1
      rw [this, hrec.2.1]
      exact hfp
    have h2mpn : truthy c2.mpn = false := by
      have := hdf.2.1
      rw [this, hrec.2.2.1]
      exact hmpn
    have h2pkg : truthy c2.package = false := by
      have := hdf.2.2.1
      rw [this, hrec.2.2.2.1]
      exact hpkg
    cases e2 with
    | some e =>
      simp only [seqStage_err]
      exact h2fv
    | none =>
      rcases hacq : acquisitionStep env c2 with ⟨c3, e3⟩
      have hinert := acquisitionStep_inert env c2 h2fp h2mpn h2pkg
      rw [hacq] at hinert
      injection hinert with hc3 he3
      subst he3
      simp only [seqStage_ok, hacq]
      rw [(tail3_frame env flag c3).1, hc3]
      exact h2fv

theorem C7_pass_frame_witness :
    (verify_component envC7 false { cC7 with llm_notes := ["old note"] } =
      verify_component envC7 false cC7) ∧
    (((assignedCheck envC7 cC7).1.1).status.api_downloaded = false ∧
      ((assignedCheck envC7 cC7).1.1).status.llm_suggested = false) ∧
    (envC7.inventory.find_match cBare.mpn (some cBare.value) cBare.package = none ∧
      truthy cBare.footprint = false ∧
      ((verify_component envC7 false cBare).1).status.footprint_verified =
        cBare.status.footprint_verified) :=
  ⟨C7_pass_frame.1 envC7 false cC7 ["old note"],
   C7_pass_frame.2.1 envC7 cC7,
   by decide, by decide,
   C7_pass_frame.2.2 envC7 false cBare (by decide) (by decide) (by decide) (by decide)⟩

/-- On an untrusted inventory hit the reconcile stage writes
`footprint_verified = False`. -/
theorem reconcileStep_untrusted (inv : Inventory) (c : Component)
    (item : InventoryItem)
    (hit : inv.find_match c.mpn (some c.value) c.package = some item)
    (htr : ¬ trustedSource item.footprint_source) :
    (reconcileStep inv c).status.footprint_verified = .vfalse := by
  simp only [reconcileStep, hit]
  rw [if_neg (by exact htr)]

/-- C1: across any sequence of pipeline operations, a component's
`footprint_verified` never becomes `True` unless some reconciliation ran
against a store containing an item of trusted provenance (`manual` or
`kit_ingest_verified`); an untrusted hit yields `False` (the API path yields
the distinct `review_pending`, covered by the acquisition case of the
induction). -/
theorem C1_trusted_provenance_invariant :
    (∀ (ops : List PipeOp) (c : Component),
      (∀ inv, PipeOp.reconcile inv ∈ ops →
        ∀ item ∈ inv.inventory_parts, ¬ trustedSource item.footprint_source) →
      c.status.footprint_verified ≠ .vtrue →
      (ops.foldl applyOp c).status.footprint_verified ≠ .vtrue) ∧
    (∀ (inv : Inventory) (c : Component) (item : InventoryItem),
      inv.find_match c.mpn (some c.value) c.package = some item →
      ¬ trustedSource item.footprint_source →
      (reconcileStep inv c).status.footprint_verified = .vfalse) := by
  refine ⟨?_, reconcileStep_untrusted⟩
  intro ops
  induction ops with
  | nil => intro c _ hc; exact hc
  | cons op rest ih =>
    intro c hops hc
    simp only [List.foldl_cons]
    apply ih
    · intro inv hinv
      exact hops inv (List.mem_cons_of_mem _ hinv)
    · cases op with
      | reconcile inv =>
        intro hv
        rcases reconcileStep_vtrue inv c hv with h | ⟨item, hmem, htr⟩
        · exact hc h
        · exact hops inv (List.mem_cons_self _ _) item hmem htr
      | datasheet env =>
        intro hv
        refine hc ?_
        rw [← (datasheetStep_frame env c).2.2.2.2.1]
        exact hv
      | acquisition env =>
        intro hv
        exact hc (acquisitionStep_vtrue env c hv)
      | symbolCheck env =>
        intro hv
        refine hc ?_
        rw [← (symbolStep_frame env c).2.2.1]
        exact hv
      | scoring env =>
        intro hv
        refine hc ?_
        rw [← (healthStep_frame env c).1]
        exact hv

theorem C1_trusted_provenance_witness :
    (∀ inv, PipeOp.reconcile inv ∈ opsW →
      ∀ item ∈ inv.inventory_parts, ¬ trustedSource item.footprint_source) ∧
    cW.status.footprint_verified ≠ .vtrue ∧
    (opsW.foldl applyOp cW).status.footprint_verified ≠ .vtrue ∧
    Inventory.find_match ⟨[itUnknownSrc]⟩ cW.mpn (some cW.value) cW.package =
      some itUnknownSrc ∧
    (reconcileStep ⟨[itUnknownSrc]⟩ cW).status.footprint_verified = .vfalse := by
  have hops : ∀ inv, PipeOp.reconcile inv ∈ opsW →
      ∀ item ∈ inv.inventory_parts, ¬ trustedSource item.footprint_source := by
    intro inv hinv
    simp only [opsW, List.mem_cons, List.not_mem_nil, or_false] at hinv
    rcases hinv with h | h | h | h | h
    · injection h with h'
      subst h'
      decide
    · exact PipeOp.noConfusion h
    · exact PipeOp.noConfusion h
    · exact PipeOp.noConfusion h
    · exact PipeOp.noConfusion h
  refine ⟨hops, by decide, C1_trusted_provenance_invariant.1 opsW cW hops (by decide),
    by decide,
    C1_trusted_provenance_invariant.2 ⟨[itUnknownSrc]⟩ cW itUnknownSrc (by decide)
      (by decide)⟩

theorem reportTally_errors (cfg : RunConfig) (c : Component)
    (rep : VerificationReport) : (reportTally cfg c rep).errors = rep.errors := by
  simp only [reportTally]
  repeat' split
  all_goals rfl

theorem runLoop_spec (cfg : RunConfig) (env : Env) (flag : Bool)
    (bom : List Component) :
    (runLoop cfg env flag bom).1 =
      bom.map (fun c => (verify_component env flag c).1) ∧
    (runLoop cfg env flag bom).2.errors = bom.filterMap (fun c =>
      ((verify_component env flag c).2).map
        (fun e => "Error verifying component " ++ c.ref ++ ": " ++ e)) := by
  induction bom with
  | nil => exact ⟨rfl, rfl⟩
  | cons c rest ih =>
    simp only [runLoop, List.map_cons, List.filterMap_cons]
    rcases hvc : verify_component env flag c with ⟨c', e'⟩
    cases e' with
    | none =>
      simp only [Option.map_none']
      exact ⟨by rw [← ih.1], by rw [reportTally_errors, ← ih.2]⟩
    | some e =>
      simp only [Option.map_some']
      exact ⟨by rw [← ih.1], by rw [← ih.2]⟩

/-- C4: the orchestrator never aborts — `components_processed` is the full
BOM length, every component (failing or not) is processed to the engine's
output for it, and each per-component exception becomes exactly one
report-level error entry `"Error verifying component <ref>: <e>"`, in BOM
order.  Moreover a component whose part-lookup capability throws during
ApiSearch ends the pass with `api_downloaded = false` and the diagnostic
note `"Footprint API search error: <e>"` appended. -/
theorem C4_error_isolation :
    (∀ (cfg : RunConfig) (env : Env) (flag : Bool) (bom : List Component),
      (verify_bom cfg env flag bom).2.components_processed = bom.length ∧
      (verify_bom cfg env flag bom).1 =
        bom.map (fun c => (verify_component env flag c).1) ∧
      (verify_bom cfg env flag bom).2.errors = bom.filterMap (fun c =>
        ((verify_component env flag c).2).map
          (fun e => "Error verifying component " ++ c.ref ++ ": " ++ e))) ∧
    (∀ (env : Env) (flag : Bool) (c c2 c3 : Component) (e : String),
      datasheetStep env (reconcileStep env.inventory { c with llm_notes := [] }) =
        (c2, none) →
      assignedCheck env c2 = ((c3, false), none) →
      truthy c3.mpn = true →
      env.search_by_mpn (getS c3.mpn) = .error e →
      ((verify_component env flag c).1).status.api_downloaded = false ∧
      ("Footprint API search error: " ++ e) ∈
        ((verify_component env flag c).1).llm_notes) := by
  constructor
  · intro cfg env flag bom
    exact ⟨rfl, (runLoop_spec cfg env flag bom).1, (runLoop_spec cfg env flag bom).2⟩
  · intro env flag c c2 c3 e hds hac hmpn hsearch
    have h3api : c3.status.api_downloaded = false := by
      have h := (assignedCheck_resets env c2).1
      rw [hac] at h
      exact h
    simp only [verify_component, hds, seqStage_ok, acquisitionStep, hac]
    rw [if_neg Bool.false_ne_true, if_pos hmpn]
    simp only [apiSearchStep, hsearch]
    split
    · -- suggestion branch taken
      simp only [seqStage_ok]
      constructor
      · rw [(tail3_frame env flag _).2.1, suggestionStep_api]
        exact h3api
      · apply (tail3_frame env flag _).2.2.2.2
        apply suggestionStep_notes_mem
        simp [addNote]
    · -- suggestion branch not taken
      simp only [seqStage_ok]
      constructor
      · rw [(tail3_frame env flag _).2.1]
        exact h3api
      · apply (tail3_frame env flag _).2.2.2.2
        simp [addNote]

theorem C4_error_isolation_witness :
    ((verify_component envErr false cErr).1).status.api_downloaded = false ∧
    ("Footprint API search error: " ++ "boom") ∈
      ((verify_component envErr false cErr).1).llm_notes :=
  C4_error_isolation.2 envErr false cErr
    ((datasheetStep envErr
        (reconcileStep envErr.inventory { cErr with llm_notes := [] })).1)
    ((assignedCheck envErr
        ((datasheetStep envErr
          (reconcileStep envErr.inventory { cErr with llm_notes := [] })).1)).1.1)
    "boom" rfl rfl (by decide) rfl

theorem reportTally_dsm (cfg : RunConfig) (c : Component)
    (rep : VerificationReport) :
    (reportTally cfg c rep).datasheet_missing =
      rep.datasheet_missing +
        (if !c.status.datasheet_local && !truthy c.datasheet_url then 1 else 0) := by
  simp only [reportTally]
  repeat' split
  all_goals simp_all

theorem runLoop_dsm (cfg : RunConfig) (env : Env) (flag : Bool)
    (bom : List Component) :
    (runLoop cfg env flag bom).2.datasheet_missing =
      bom.countP (fun c =>
        match verify_component env flag c with
        | (c', none) => !c'.status.datasheet_local && !truthy c'.datasheet_url
        | (_, some _) => false) := by
  induction bom with
  | nil => rfl
  | cons c rest ih =>
    simp only [runLoop, List.countP_cons]
    rcases hvc : verify_component env flag c with ⟨c', e'⟩
    cases e' with
    | none =>
      simp only [reportTally_dsm, ih]
    | some e =>
      simp only [ih]
      simp

/-- Each pass leaves `datasheet_url` untouched (it is read, never written). -/
theorem verify_component_url (env : Env) (flag : Bool) (c : Component) :
    ((verify_component env flag c).1).datasheet_url = c.datasheet_url := by
  simp only [verify_component]
  rcases hds : datasheetStep env
      (reconcileStep env.inventory { c with llm_notes := [] }) with ⟨c2, e2⟩
  have hu2 : c2.datasheet_url = c.datasheet_url := by
    have h := (datasheetStep_frame env
      (reconcileStep env.inventory { c with llm_notes := [] })).2.2.2.1
    rw [hds] at h
    rw [h, reconcileStep_url]
  cases e2 with
  | some e =>
    simp only [seqStage_err]
    exact hu2
  | none =>
    rcases hacq : acquisitionStep env c2 with ⟨c3, e3⟩
    have hu3 : c3.datasheet_url = c2.datasheet_url := by
      have h := acquisitionStep_url env c2
      rw [hacq] at h
      exact h
    simp only [seqStage_ok, hacq]
    cases e3 with
    | some e =>
      simp only [seqStage_err]
      rw [hu3]
      exact hu2
    | none =>
      simp only [seqStage_ok]
      rw [(tail3_frame env flag c3).2.2.2.1, hu3]
      exact hu2

/-- C10: the report's missing-datasheet counter counts exactly the
components whose pass raised no exception and which end the pass with
neither a local datasheet nor a datasheet URL; since `datasheet_url` is
never written by a pass, a component with a URL but no local copy (download
failure included) is never counted. -/
theorem C10_datasheet_missing :
    (∀ (cfg : RunConfig) (env : Env) (flag : Bool) (bom : List Component),
      (verify_bom cfg env flag bom).2.datasheet_missing =
        bom.countP (fun c =>
          match verify_component env flag c with
          | (c', none) => !c'.status.datasheet_local && !truthy c'.datasheet_url
          | (_, some _) => false)) ∧
    (∀ (env : Env) (flag : Bool) (c : Component),
      ((verify_component env flag c).1).datasheet_url = c.datasheet_url) := by
  refine ⟨?_, verify_component_url⟩
  intro cfg env flag bom
  exact runLoop_dsm cfg env flag bom
